import Mathlib

/-!
Verification of the order-validation core of the anon-perp-hook repository
(src/order-engine/program/src/lib.rs), an SP1 zkVM program that validates
perp order commitments: it checks that a private payload hashes to a public
commitment, that a private balance covers a private margin, and that a
nullifier has not been used, then commits a fixed bundle of public outputs.

Bytes are modelled as natural numbers below 256; byte strings as lists of
naturals.  Machine words use explicit reduction modulo 2^32 / 2^64.
-/

namespace OrderEngine

/-! ## SHA-256 (FIPS 180-4), backing the sha2 crate used by the program

The program hashes with sha2::Sha256.  The implementation below is the
standard SHA-256 over byte lists, with 32-bit words carried as naturals
reduced modulo 2^32. -/

/-- Reduce to a 32-bit word. -/
def w32 (x : Nat) : Nat := x % 4294967296

/-- 32-bit modular addition. -/
def add32 (a b : Nat) : Nat := (a + b) % 4294967296

/-- Right rotation of a 32-bit word by n. -/
def rotr32 (n x : Nat) : Nat := w32 ((x >>> n) ||| (x <<< (32 - n)))

/-- SHA-256 Ch function. -/
def sha_ch (x y z : Nat) : Nat := (x &&& y) ^^^ ((x ^^^ 4294967295) &&& z)

/-- SHA-256 Maj function. -/
def sha_maj (x y z : Nat) : Nat := (x &&& y) ^^^ (x &&& z) ^^^ (y &&& z)

/-- SHA-256 big sigma 0. -/
def sigBig0 (x : Nat) : Nat := rotr32 2 x ^^^ rotr32 13 x ^^^ rotr32 22 x

/-- SHA-256 big sigma 1. -/
def sigBig1 (x : Nat) : Nat := rotr32 6 x ^^^ rotr32 11 x ^^^ rotr32 25 x

/-- SHA-256 small sigma 0. -/
def sigSmall0 (x : Nat) : Nat := rotr32 7 x ^^^ rotr32 18 x ^^^ (x >>> 3)

/-- SHA-256 small sigma 1. -/
def sigSmall1 (x : Nat) : Nat := rotr32 17 x ^^^ rotr32 19 x ^^^ (x >>> 10)

/-- The 64 SHA-256 round constants, in decimal. -/
def sha_K : List Nat :=
  [1116352408, 1899447441, 3049323471, 3921009573, 961987163,
   1508970993, 2453635748, 2870763221, 3624381080, 310598401,
   607225278, 1426881987, 1925078388, 2162078206, 2614888103,
   3248222580, 3835390401, 4022224774, 264347078, 604807628,
   770255983, 1249150122, 1555081692, 1996064986, 2554220882,
   2821834349, 2952996808, 3210313671, 3336571891, 3584528711,
   113926993, 338241895, 666307205, 773529912, 1294757372,
   1396182291, 1695183700, 1986661051, 2177026350, 2456956037,
   2730485921, 2820302411, 3259730800, 3345764771, 3516065817,
   3600352804, 4094571909, 275423344, 430227734, 506948616,
   659060556, 883997877, 958139571, 1322822218, 1537002063,
   1747873779, 1955562222, 2024104815, 2227730452, 2361852424,
   2428436474, 2756734187, 3204031479, 3329325298]

/-- The eight SHA-256 initial hash words, in decimal. -/
def sha_H0 : List Nat :=
  [1779033703, 3144134277, 1013904242, 2773480762,
   1359893119, 2600822924, 528734635, 1541459225]

/-- Read four bytes (big-endian) as a 32-bit word. -/
def beWord (bs : List Nat) : Nat :=
  bs.foldl (fun acc b => acc * 256 + b) 0

/-- Split a 64-byte block into its 16 big-endian 32-bit words. -/
def blockWords (block : List Nat) : List Nat :=
  (List.range 16).map (fun j => beWord ((block.drop (4 * j)).take 4))

/-- One step of the message-schedule extension: append word t (for 16 ≤ t). -/
def extendStep (w : Array Nat) (t : Nat) : Array Nat :=
  w.push (add32 (add32 (sigSmall1 (w.getD (t - 2) 0)) (w.getD (t - 7) 0))
               (add32 (sigSmall0 (w.getD (t - 15) 0)) (w.getD (t - 16) 0)))

/-- Extend 16 message words to the 64-entry SHA-256 message schedule. -/
def messageSchedule (ws : List Nat) : List Nat :=
  ((List.range 48).foldl (fun w j => extendStep w (j + 16)) ws.toArray).toList

/-- The eight working variables of the SHA-256 compression loop. -/
structure Sha8 where
  a : Nat
  b : Nat
  c : Nat
  d : Nat
  e : Nat
  f : Nat
  g : Nat
  h : Nat
  deriving Repr, DecidableEq

/-- One SHA-256 compression round, consuming a (round constant, schedule word) pair. -/
def shaRound (st : Sha8) (kw : Nat × Nat) : Sha8 :=
  let t1 := add32 st.h (add32 (sigBig1 st.e) (add32 (sha_ch st.e st.f st.g) (add32 kw.1 kw.2)))
  let t2 := add32 (sigBig0 st.a) (sha_maj st.a st.b st.c)
  ⟨add32 t1 t2, st.a, st.b, st.c, add32 st.d t1, st.e, st.f, st.g⟩

/-- Compress one 64-byte block into the running 8-word hash state. -/
def compress (hs : List Nat) (block : List Nat) : List Nat :=
  let w := messageSchedule (blockWords block)
  let st0 : Sha8 := ⟨hs.getD 0 0, hs.getD 1 0, hs.getD 2 0, hs.getD 3 0,
                     hs.getD 4 0, hs.getD 5 0, hs.getD 6 0, hs.getD 7 0⟩
  let st := (sha_K.zip w).foldl shaRound st0
  [add32 (hs.getD 0 0) st.a, add32 (hs.getD 1 0) st.b, add32 (hs.getD 2 0) st.c,
   add32 (hs.getD 3 0) st.d, add32 (hs.getD 4 0) st.e, add32 (hs.getD 5 0) st.f,
   add32 (hs.getD 6 0) st.g, add32 (hs.getD 7 0) st.h]

/-- A natural as n big-endian bytes. -/
def beBytes (n v : Nat) : List Nat :=
  (List.range n).map (fun i => v / 256 ^ (n - 1 - i) % 256)

/-- SHA-256 padding: append 0x80, zeros to 56 mod 64, then the bit length as 8 big-endian bytes. -/
def padMessage (msg : List Nat) : List Nat :=
  let L := msg.length
  let k := (119 - L % 64) % 64
  msg ++ [128] ++ List.replicate k 0 ++ beBytes 8 (8 * L)

/-- Split a byte list into consecutive 64-byte blocks. -/
def chunks64 (l : List Nat) : List (List Nat) :=
  if h : l = [] then []
  else l.take 64 :: chunks64 (l.drop 64)
termination_by l.length
decreasing_by
  simp only [List.length_drop]
  have := List.length_pos.mpr h
  omega

/-- A 32-bit word as four big-endian bytes. -/
def wordBytes (v : Nat) : List Nat := beBytes 4 v

/-- SHA-256 of a byte list, as its 32 digest bytes. -/
def sha256 (msg : List Nat) : List Nat :=
  (((chunks64 (padMessage msg)).foldl compress sha_H0).map wordBytes).flatten

/-! ## Data model (src/order-engine/program/src/lib.rs, lines 10-24)

The Rust fixed arrays [u8; 32] are modelled as byte lists; decoded values
are always 32 bytes long. -/

/-- OrderCommitment: the public claim about an order (lib.rs lines 10-15). -/
structure OrderCommitment where
  commitment : List Nat
  nullifier : List Nat
  balance_hash : List Nat
  deriving Repr, DecidableEq

/-- ValidationResult: the public result record (lib.rs lines 18-24),
fields in source order. -/
structure ValidationResult where
  is_valid : Bool
  commitment_valid : Bool
  balance_sufficient : Bool
  nullifier_unused : Bool
  deriving Repr, DecidableEq

/-- The five values main reads from the host, in read order (lib.rs lines 30-36). -/
structure Inputs where
  order_commitment : OrderCommitment
  order_data : List Nat
  user_balance : Nat
  required_margin : Nat
  nullifier_set : List (List Nat)
  deriving Repr, DecidableEq

/-! ## The helper functions of lib.rs -/

/-- hash_data (lib.rs lines 77-81): SHA-256 of the order data. -/
def hash_data (data : List Nat) : List Nat := sha256 data

/-- validate_commitment (lib.rs lines 68-74): hash the order data and compare
with the commitment, byte-for-byte. -/
def validate_commitment (order_data : List Nat) (commitment : List Nat) : Bool :=
  hash_data order_data == commitment

/-- u64::to_le_bytes: the eight little-endian bytes of a 64-bit value. -/
def u64ToLeBytes (v : Nat) : List Nat :=
  (List.range 8).map (fun i => v / 256 ^ i % 256)

/-- hash_balance (lib.rs lines 84-88): SHA-256 of the little-endian bytes
of the balance. -/
def hash_balance (balance : Nat) : List Nat :=
  sha256 (u64ToLeBytes balance)

/-! ## main (lib.rs lines 29-65) -/

/-- The three checks and their aggregation (lib.rs lines 40-58): the
ValidationResult main constructs.  Each check is an independent straight-line
computation; none is guarded by another.  is_valid is the source expression
commitment_valid && balance_sufficient && nullifier_unused. -/
def validationOf (i : Inputs) : ValidationResult :=
  let commitment_valid := validate_commitment i.order_data i.order_commitment.commitment
  let balance_sufficient := decide (i.user_balance ≥ i.required_margin)
  let nullifier_unused := ! i.nullifier_set.contains i.order_commitment.nullifier
  let is_valid := commitment_valid && balance_sufficient && nullifier_unused
  ⟨is_valid, commitment_valid, balance_sufficient, nullifier_unused⟩

/-- One committed public value: env::commit is called on 32-byte arrays and on
the ValidationResult record. -/
inductive PublicOutput where
  | bytes32 (b : List Nat)
  | result (r : ValidationResult)
  deriving Repr, DecidableEq

/-- The body of main after the reads (lib.rs lines 39-64): the ordered list of
env::commit calls.  Committed in source order: commitment, nullifier,
balance_hash, result. -/
def runMain (i : Inputs) : List PublicOutput :=
  [PublicOutput.bytes32 i.order_commitment.commitment,
   PublicOutput.bytes32 i.order_commitment.nullifier,
   PublicOutput.bytes32 (hash_balance i.user_balance),
   PublicOutput.result (validationOf i)]

/-! ## Input decoding

Modelled from the spec: the env::read deserialization lives in the sp1_zkvm
crate, outside this repository's sources; spec section 6 fixes the positional
input contract (OrderCommitment as 3 x 32 bytes, variable-length payload,
two 8-byte little-endian unsigned integers, then a sequence of 32-byte
values) and section 9 asks for one statically-typed decode function per
shape, failing with MalformedInput on length or type mismatch.  Variable
length sequences carry an 8-byte little-endian count, as in the host codec. -/

/-- Modelled from the spec: take n bytes off the stream; fail when the stream
is shorter than n or an element is not a byte (wrong length / wrong element
type = MalformedInput). -/
def takeBytes (n : Nat) (s : List Nat) : Option (List Nat × List Nat) :=
  if s.length < n then none
  else if (s.take n).all (fun b => b < 256) then some (s.take n, s.drop n)
  else none

/-- Modelled from the spec: the little-endian value of a byte list. -/
def leVal (bs : List Nat) : Nat :=
  bs.foldr (fun b acc => b + 256 * acc) 0

/-- Modelled from the spec: decode an 8-byte little-endian u64. -/
def decodeU64 (s : List Nat) : Option (Nat × List Nat) :=
  (takeBytes 8 s).map (fun p => (leVal p.1, p.2))

/-- Modelled from the spec: decode the OrderCommitment record, 3 x 32 bytes. -/
def decodeOrderCommitment (s : List Nat) : Option (OrderCommitment × List Nat) := do
  let (c, s1) ← takeBytes 32 s
  let (n, s2) ← takeBytes 32 s1
  let (b, s3) ← takeBytes 32 s2
  pure (⟨c, n, b⟩, s3)

/-- Modelled from the spec: decode the variable-length payload, a
count-prefixed byte sequence. -/
def decodePayload (s : List Nat) : Option (List Nat × List Nat) := do
  let (n, s1) ← decodeU64 s
  takeBytes n s1

/-- Modelled from the spec: decode n consecutive 32-byte values. -/
def decodeNullifiers : Nat → List Nat → Option (List (List Nat) × List Nat)
  | 0, s => some ([], s)
  | n + 1, s => do
      let (b, s1) ← takeBytes 32 s
      let (rest, s2) ← decodeNullifiers n s1
      pure (b :: rest, s2)

/-- Modelled from the spec: decode the nullifier set, a count-prefixed
sequence of 32-byte values. -/
def decodeNullifierSet (s : List Nat) : Option (List (List Nat) × List Nat) := do
  let (n, s1) ← decodeU64 s
  decodeNullifiers n s1

/-- Modelled from the spec: decode the five inputs in the positional order of
lib.rs lines 30-36; any failure is MalformedInput for the whole stream. -/
def decodeInputs (s : List Nat) : Option Inputs := do
  let (oc, s1) ← decodeOrderCommitment s
  let (payload, s2) ← decodePayload s1
  let (balance, s3) ← decodeU64 s2
  let (margin, s4) ← decodeU64 s3
  let (nset, _) ← decodeNullifierSet s4
  pure ⟨oc, payload, balance, margin, nset⟩

/-- The whole execution: decode the input stream, then run main; a decode
failure aborts the execution with no public output at all. -/
def runProgram (s : List Nat) : Option (List PublicOutput) :=
  (decodeInputs s).map runMain

/-! ## Concrete sample values used by witnesses -/

/-- 32 zero bytes. -/
def zeros32 : List Nat := List.replicate 32 0

/-- A sample 32-byte nullifier. -/
def sampleNulA : List Nat := List.replicate 32 1

/-- Another sample 32-byte nullifier. -/
def sampleNulB : List Nat := List.replicate 32 2

/-- Sample inputs with balance equal to margin. -/
def sampleInputsEq : Inputs := ⟨⟨zeros32, zeros32, zeros32⟩, [], 7, 7, []⟩

/-- Sample inputs with a two-element nullifier set. -/
def sampleInputsPermA : Inputs :=
  ⟨⟨zeros32, zeros32, zeros32⟩, [], 0, 0, [sampleNulA, sampleNulB]⟩

/-- The same sample inputs with the nullifier set supplied in the other order. -/
def sampleInputsPermB : Inputs :=
  ⟨⟨zeros32, zeros32, zeros32⟩, [], 0, 0, [sampleNulB, sampleNulA]⟩

/-- Sample inputs whose commitment record carries one balance_hash field. -/
def sampleInputsBH1 : Inputs := ⟨⟨zeros32, zeros32, sampleNulA⟩, [], 0, 0, []⟩

/-- The same sample inputs with a different balance_hash field. -/
def sampleInputsBH2 : Inputs := ⟨⟨zeros32, zeros32, sampleNulB⟩, [], 0, 0, []⟩

/-- A malformed input stream: a commitment truncated to 31 bytes. -/
def truncatedStream : List Nat := List.replicate 31 0

/-! ## General lemmas about the embedding -/

/-- List.contains with the lawful byte-list BEq instance is list membership. -/
theorem contains_iff_mem (l : List (List Nat)) (a : List Nat) :
    l.contains a = true ↔ a ∈ l := by
  induction l with
  | nil => simp [List.contains]
  | cons b bs ih => simp [List.contains] at ih ⊢

/-- The nullifier_unused flag is the negated membership test of lib.rs line 47. -/
theorem nullifier_unused_eq (i : Inputs) :
    (validationOf i).nullifier_unused =
      (! i.nullifier_set.contains i.order_commitment.nullifier) := rfl

/-- Every public output of a run, other than the balance digest, is determined
by the commitment record, the payload, the nullifier set, and the sole bit
(balance at least margin); the balance itself enters nowhere else. -/
theorem balance_enters_only_through_predicate (i j : Inputs)
    (hoc : i.order_commitment = j.order_commitment)
    (hd : i.order_data = j.order_data)
    (hm : i.required_margin = j.required_margin)
    (hs : i.nullifier_set = j.nullifier_set)
    (hpred : (i.user_balance ≥ i.required_margin) ↔ (j.user_balance ≥ j.required_margin)) :
    (runMain i)[0]? = (runMain j)[0]? ∧ (runMain i)[1]? = (runMain j)[1]? ∧
      (runMain i)[3]? = (runMain j)[3]? := by
  rw [ge_iff_le, ge_iff_le, hm] at hpred
  simp [runMain, validationOf, hoc, hd, hm, hs, hpred]

/-! ## Claim theorems -/

/-- Claim C1: for every payload byte sequence and every 32-byte commitment,
the commitment_valid flag is true iff the SHA-256 hash of the payload is
byte-for-byte equal to the commitment field of the public OrderCommitment;
full-list equality, no partial-match or prefix semantics. -/
theorem commitment_valid_iff_sha256_eq :
    (∀ data c : List Nat, validate_commitment data c = true ↔ sha256 data = c) ∧
    (∀ i : Inputs, (validationOf i).commitment_valid = true ↔
        sha256 i.order_data = i.order_commitment.commitment) := by
  constructor <;> intros <;> simp [validate_commitment, validationOf, hash_data]

/-- Claim C2: for every 64-bit balance and margin, the balance_sufficient
flag is true iff balance is at least margin, and at the boundary
balance = margin the flag is true. -/
theorem balance_sufficient_iff_ge (i : Inputs)
    (hb : i.user_balance < 2 ^ 64) (hm : i.required_margin < 2 ^ 64) :
    ((validationOf i).balance_sufficient = true ↔
        i.user_balance ≥ i.required_margin) ∧
      (i.user_balance = i.required_margin →
        (validationOf i).balance_sufficient = true) := by
  refine ⟨by simp [validationOf], fun h => by simp [validationOf, h]⟩

/-- Witness for C2 at balance = margin = 7. -/
theorem balance_sufficient_iff_ge_witness :
    (validationOf sampleInputsEq).balance_sufficient = true :=
  (balance_sufficient_iff_ge sampleInputsEq (by decide) (by decide)).2 rfl

/-- Claim C3: the nullifier_unused flag is true iff the nullifier is not a
member of the nullifier set, with exact 32-byte equality; for the empty set
it is always true; and the flag does not depend on the order in which the
set elements are supplied. -/
theorem nullifier_unused_iff_not_mem :
    (∀ i : Inputs, (validationOf i).nullifier_unused = true ↔
        i.order_commitment.nullifier ∉ i.nullifier_set) ∧
    (∀ i : Inputs, i.nullifier_set = [] →
        (validationOf i).nullifier_unused = true) ∧
    (∀ i j : Inputs, i.order_commitment = j.order_commitment →
        List.Perm i.nullifier_set j.nullifier_set →
        (validationOf i).nullifier_unused = (validationOf j).nullifier_unused) := by
  refine ⟨fun i => by simp [validationOf], fun i h => by simp [validationOf, h],
    fun i j hoc hperm => ?_⟩
  simp only [validationOf, hoc]
  simp [hperm.mem_iff]

/-- Witness for C3: a concrete two-element set supplied in both orders gives
the same flag. -/
theorem nullifier_unused_iff_not_mem_witness :
    (validationOf sampleInputsPermA).nullifier_unused =
      (validationOf sampleInputsPermB).nullifier_unused :=
  nullifier_unused_iff_not_mem.2.2 sampleInputsPermA sampleInputsPermB rfl
    (List.Perm.swap sampleNulB sampleNulA [])

/-- Claim C4: is_valid is exactly the conjunction of the three flags, and
each flag is the value of its own stand-alone check, unaffected by the
others (every check always runs; no flag appears in another flag's
definition). -/
theorem is_valid_is_and_of_flags (i : Inputs) :
    (validationOf i).is_valid =
      ((validationOf i).commitment_valid && (validationOf i).balance_sufficient &&
        (validationOf i).nullifier_unused) ∧
    (validationOf i).commitment_valid =
      validate_commitment i.order_data i.order_commitment.commitment ∧
    (validationOf i).balance_sufficient =
      decide (i.user_balance ≥ i.required_margin) ∧
    (validationOf i).nullifier_unused =
      (! i.nullifier_set.contains i.order_commitment.nullifier) :=
  ⟨rfl, rfl, rfl, rfl⟩

/-- Claim C5: the emitted balance digest (third public output) is the
SHA-256 hash of the eight little-endian bytes of the balance, for every
input — in particular whether or not the balance comparison succeeds. -/
theorem balance_hash_emitted_unconditionally (i : Inputs) :
    (runMain i)[2]? =
      some (PublicOutput.bytes32 (sha256 (u64ToLeBytes i.user_balance))) ∧
    hash_balance i.user_balance = sha256 (u64ToLeBytes i.user_balance) :=
  ⟨rfl, rfl⟩

/-- Claim C6: every successful run emits exactly four public outputs, in the
fixed order commitment, nullifier, balance digest, ValidationResult (whose
fields are ordered is_valid, commitment_valid, balance_sufficient,
nullifier_unused), whatever the flag values are. -/
theorem output_bundle_fixed_order (i : Inputs) :
    runMain i =
      [PublicOutput.bytes32 i.order_commitment.commitment,
       PublicOutput.bytes32 i.order_commitment.nullifier,
       PublicOutput.bytes32 (hash_balance i.user_balance),
       PublicOutput.result
         ⟨(validationOf i).is_valid, (validationOf i).commitment_valid,
          (validationOf i).balance_sufficient, (validationOf i).nullifier_unused⟩] ∧
    (runMain i).length = 4 :=
  ⟨rfl, rfl⟩

/-- Claim C7: when the input stream fails to decode into the five expected
inputs, the execution aborts with no public output at all. -/
theorem malformed_input_aborts (s : List Nat) (h : decodeInputs s = none) :
    runProgram s = none := by
  simp [runProgram, h]

/-- Witness for C7: a stream holding only 31 bytes (a truncated commitment)
fails to decode, and the run emits nothing. -/
theorem malformed_input_aborts_witness :
    decodeInputs truncatedStream = none ∧ runProgram truncatedStream = none :=
  ⟨by decide, malformed_input_aborts truncatedStream (by decide)⟩

/-- Claim C9: the run is a deterministic function of the five inputs — two
executions on identical inputs produce identical public output bundles. -/
theorem deterministic_outputs (i j : Inputs) (h : i = j) :
    runMain i = runMain j := congrArg runMain h

/-- Witness for C9 at a concrete input. -/
theorem deterministic_outputs_witness :
    runMain sampleInputsEq = runMain sampleInputsEq :=
  deterministic_outputs sampleInputsEq sampleInputsEq rfl

/-- Claim C10: the balance_hash field of the input OrderCommitment is never
used — two runs differing only in that field produce identical outputs —
and the emitted balance digest is recomputed from the private balance. -/
theorem input_balance_hash_field_unused (i j : Inputs)
    (hc : i.order_commitment.commitment = j.order_commitment.commitment)
    (hn : i.order_commitment.nullifier = j.order_commitment.nullifier)
    (hd : i.order_data = j.order_data)
    (hb : i.user_balance = j.user_balance)
    (hm : i.required_margin = j.required_margin)
    (hs : i.nullifier_set = j.nullifier_set) :
    runMain i = runMain j ∧
    (runMain i)[2]? = some (PublicOutput.bytes32 (hash_balance i.user_balance)) := by
  obtain ⟨⟨c1, n1, bh1⟩, d1, b1, m1, s1⟩ := i
  obtain ⟨⟨c2, n2, bh2⟩, d2, b2, m2, s2⟩ := j
  simp_all [runMain, validationOf]

/-- Witness for C10: two concrete runs whose commitment records differ only
in the balance_hash field give identical output bundles. -/
theorem input_balance_hash_field_unused_witness :
    runMain sampleInputsBH1 = runMain sampleInputsBH2 :=
  (input_balance_hash_field_unused sampleInputsBH1 sampleInputsBH2
    rfl rfl rfl rfl rfl rfl).1

end OrderEngine
